import Mathlib

/-!
Verification development for the repository guessthenum.py (a console
number-guessing game). The definitions below are a shallow embedding of
src/guessthenum.py: the `ConsoleMenu` class with its `Option` and `Value`
entries, and the `Game` class with its round state machine. Python ints are
modelled as `Int` (they are unbounded), Python exceptions as an explicit
`PyError` result, and the blocking console reads as explicit lists of input
lines or parsed guesses.
-/

namespace GuessTheNum

/-- Python exception classes that can arise in the embedded code paths:
`int()` on a malformed literal and `random.randint` with an empty range raise
`ValueError`; `TypeError` is the class that `ConsoleMenu.Value.select` tries
to catch. -/
inductive PyError where
  | valueError
  | typeError
deriving DecidableEq

/-- Runtime classes of the values stored in the configurable fields
(`getattr(self.parent, self.atr).__class__` at guessthenum.py:185). The game
only ever stores ints and tuples of ints; list and str are kept because
`Value.select` branches on them. -/
inductive PyType where
  | intT
  | tupleT
  | listT
  | strT
deriving DecidableEq

/-- A value as stored in a configurable field. Tuples and lists are
homogeneous over ints here because every sequence field of the game holds
ints (the guess range). -/
inductive PyVal where
  | vint (n : Int)
  | vtuple (xs : List Int)
  | vlist (xs : List Int)
  | vstr (s : String)
deriving DecidableEq

/-- The runtime class of a stored value, as read by `Value.select`. -/
def PyVal.typ : PyVal → PyType
  | .vint _ => .intT
  | .vtuple _ => .tupleT
  | .vlist _ => .listT
  | .vstr _ => .strT

instance {ε α : Type} [DecidableEq ε] [DecidableEq α] : DecidableEq (Except ε α) :=
  fun x y =>
    match x, y with
    | .error a, .error b =>
        if h : a = b then isTrue (congrArg Except.error h)
        else isFalse fun hh => h (Except.error.inj hh)
    | .error _, .ok _ => isFalse fun hh => Except.noConfusion hh
    | .ok _, .error _ => isFalse fun hh => Except.noConfusion hh
    | .ok a, .ok b =>
        if h : a = b then isTrue (congrArg Except.ok h)
        else isFalse fun hh => h (Except.ok.inj hh)

/-- Remove leading and trailing whitespace from a character list, as Python
`str.strip()` does before `int()` parses a literal. -/
def pyStrip (cs : List Char) : List Char :=
  ((cs.dropWhile Char.isWhitespace).reverse.dropWhile Char.isWhitespace).reverse

/-- Accumulate decimal digits; any non-digit character makes the parse fail. -/
def decDigitsGo : Nat → List Char → Option Nat
  | acc, [] => some acc
  | acc, c :: cs =>
      if c.isDigit then decDigitsGo (10 * acc + (c.toNat - 48)) cs else none

/-- Parse a non-empty all-digit character list as a natural number. -/
def decDigits : List Char → Option Nat
  | [] => none
  | cs => decDigitsGo 0 cs

/-- Python `int(s)` on a string: strips surrounding whitespace, allows one
leading sign, then requires decimal digits; anything else raises
`ValueError`. (Digit-grouping underscores are not modelled; no input in this
development uses them.) -/
def pyInt (s : String) : Except PyError Int :=
  match pyStrip s.data with
  | '+' :: cs =>
      match decDigits cs with
      | some n => .ok (n : Int)
      | none => .error .valueError
  | '-' :: cs =>
      match decDigits cs with
      | some n => .ok (-(n : Int))
      | none => .error .valueError
  | cs =>
      match decDigits cs with
      | some n => .ok (n : Int)
      | none => .error .valueError

/-- Worker for `pySplit`: `cur` holds the characters of the token being
built, in reverse; whitespace closes the token, and empty tokens (runs of
whitespace) are dropped. -/
def pySplitGo (cur : List Char) : List Char → List (List Char)
  | [] => if cur = [] then [] else [cur.reverse]
  | c :: cs =>
      if c.isWhitespace then
        if cur = [] then pySplitGo [] cs else cur.reverse :: pySplitGo [] cs
      else
        pySplitGo (c :: cur) cs

/-- Python `s.split()` with no argument: split on runs of whitespace,
dropping empty pieces. -/
def pySplit (s : String) : List String :=
  (pySplitGo [] s.data).map String.mk

/-- Python `tuple(map(int, tokens))` / `list(map(int, tokens))`: coerce each
token left to right; the first malformed token raises `ValueError`. Note the
source writes `map(int or str, ...)` (guessthenum.py:189); `int or str`
evaluates to `int`, so the element coercion is always `int`. -/
def coerceTokens : List String → Except PyError (List Int)
  | [] => .ok []
  | t :: ts =>
      match pyInt t with
      | .error e => .error e
      | .ok n => (coerceTokens ts).map fun xs => n :: xs

/-- One attempted coercion of an input line in `Value.select`
(guessthenum.py:185-191): if the current field is a list or tuple, split the
line and coerce every token to int; otherwise coerce the whole line to the
current scalar type. No arity check is performed on the sequence branch:
Python `tuple(...)` accepts an iterable of any length. -/
def coerceValue (t : PyType) (line : String) : Except PyError PyVal :=
  match t with
  | .listT => (coerceTokens (pySplit line)).map PyVal.vlist
  | .tupleT => (coerceTokens (pySplit line)).map PyVal.vtuple
  | .intT => (pyInt line).map PyVal.vint
  | .strT => .ok (.vstr line)

/-- Outcome of the `Value.select` read loop on a finite list of input lines. -/
inductive SelectResult where
  | set (v : PyVal)
  | crash (e : PyError)
  | pending
deriving DecidableEq

/-- The `Value.select` loop (guessthenum.py:181-195) on the current field
value and a list of entered lines. Each iteration re-reads the current type
(unchanged while no assignment succeeded) and tries to coerce the line; a
successful coercion assigns the new value and stops. The `except` clause
catches only `TypeError` (printing the type message and retrying), so a
`ValueError` from `int()` propagates out of `select` uncaught. -/
def valueSelect (current : PyVal) : List String → SelectResult
  | [] => .pending
  | line :: rest =>
      match coerceValue current.typ line with
      | .ok v => .set v
      | .error .typeError => valueSelect current rest
      | .error .valueError => .crash .valueError

/-- A menu entry as dispatched by `ConsoleMenu.open` (guessthenum.py:122-137):
an `Option` (callback), a `Value` (configurable field), a nested submenu, or
a callable factory that yields an entry when invoked. Callbacks and owner
references are abstracted to their labels: the claims about the navigator
concern which entry is selected, not what its callback later does. -/
inductive MenuEntry where
  | option (label : String)
  | value (label : String)
  | submenu (label : String)
  | factory (produces : MenuEntry)
deriving DecidableEq

/-- The `if callable(choice): choice = choice()` step (guessthenum.py:125-126):
a callable entry is invoked exactly once; the result is not re-resolved. -/
def resolve : MenuEntry → MenuEntry
  | .factory e => e
  | e => e

/-- Result of one iteration of the menu selection loop for one entered
integer: either a validation message and re-prompt, or the resolved entry. -/
inductive SelectOutcome where
  | retryMsg (msg : String)
  | selected (e : MenuEntry)
deriving DecidableEq

/-- One iteration of the selection loop in `ConsoleMenu.open`
(guessthenum.py:113-126) for an input line that parsed as the integer
`input`: subtract 1 for zero-based indexing, reject indices outside the item
list, otherwise fetch and resolve the chosen entry. The `none` arm of the
lookup is unreachable: the bounds check just before it guarantees the index
is valid. -/
def menuChoose (items : List MenuEntry) (input : Int) : SelectOutcome :=
  let choice := input - 1
  if choice > (items.length : Int) - 1 ∨ choice < 0 then
    .retryMsg "Please enter a valid option."
  else
    match items.get? choice.toNat with
    | some e => .selected (resolve e)
    | none => .retryMsg "Please enter a valid option."

/-- Python `str.title()`: a cased character is uppercased when the previous
character is not alphabetic and lowercased otherwise. -/
def pyTitleGo : Bool → List Char → List Char
  | _, [] => []
  | prevAlpha, c :: cs =>
      if c.isAlpha then
        (if prevAlpha then c.toLower else c.toUpper) :: pyTitleGo true cs
      else
        c :: pyTitleGo false cs

/-- Python `s.title()` on a string. -/
def pyTitle (s : String) : String :=
  ⟨pyTitleGo false s.toList⟩

/-- The `headerDecor` format string applied to a name (guessthenum.py:64). -/
def headerDecor (s : String) : String :=
  "<=-=-=-=-=-=\x7b " ++ s ++ " \x7d=-=-=-=-=-=>"

/-- The `ConsoleMenu` object as built by `__init__`. -/
structure ConsoleMenu where
  name : String
  header : String
  footer : String
  choices : List MenuEntry
deriving DecidableEq

/-- The body of `ConsoleMenu.__init__` (guessthenum.py:66-84). It stores the
title-cased name, a decorated header, a footer of matching length, and the
choices list as given: no validation of any kind is performed on `choices`. -/
def ConsoleMenu.init (name : String) (choices : List MenuEntry)
    (header : Option String) : ConsoleMenu :=
  let nm := pyTitle name
  let hd :=
    match header with
    | none => headerDecor nm
    | some h => headerDecor (pyTitle h)
  { name := nm, header := hd,
    footer := String.mk (List.replicate hd.length '='), choices := choices }

/-- The mutable state of the `Game` object (guessthenum.py:211-221). -/
structure GameState where
  lives : Int
  remainingLives : Int
  highscore : Int
  score : Int
  range : Int × Int
  attempts : Int
deriving DecidableEq

/-- The state built by `Game.__init__` (guessthenum.py:211-221). -/
def initialState : GameState :=
  { lives := 3, remainingLives := 3, highscore := 0, score := 0,
    range := (1, 100), attempts := 7 }

/-- The branch ladder applied to one in-loop guess (guessthenum.py:276-288),
in source order: equality with the target is checked first, then the range
bounds, then the low/high comparisons. -/
inductive GuessOutcome where
  | correct
  | outOfRange
  | tooLow
  | tooHigh
deriving DecidableEq

/-- Classify one parsed guess against the target `num` and the stored range
bounds, in the order the source checks them. -/
def classifyGuess (num lo hi g : Int) : GuessOutcome :=
  if g = num then .correct
  else if g < lo ∨ g > hi then .outOfRange
  else if g < num then .tooLow
  else .tooHigh

/-- How the attempt loop of `startRound` finished on the supplied guesses:
a break on a correct guess (recording the undecremented attempts counter at
that moment), the `while`/`else` fall-through after the counter reached 0
(recording the target value the source then prints), or still blocked at the
read prompt because the guess list ran out. -/
inductive RoundResult where
  | won (attemptsLeft : Int)
  | lost (revealed : Int)
  | pending (attemptsLeft : Int)
deriving DecidableEq

/-- The `while attempts > 0` guess loop of `Game.startRound`
(guessthenum.py:266-294) on a list of parsed in-order guesses. A correct
guess breaks out (skipping the `else` clause); an out-of-range guess
`continue`s without touching the counter; a wrong in-range guess decrements
it. When the counter is not positive the `else` clause runs: the round is
lost and the target is revealed. Lines that fail `int()` parsing only
`continue`, so they are not part of the guess list. -/
def playRound (num lo hi : Int) (attempts : Int) : List Int → RoundResult
  | [] => if attempts ≤ 0 then .lost num else .pending attempts
  | g :: gs =>
      if attempts ≤ 0 then .lost num
      else
        match classifyGuess num lo hi g with
        | .correct => .won attempts
        | .outOfRange => playRound num lo hi attempts gs
        | .tooLow => playRound num lo hi (attempts - 1) gs
        | .tooHigh => playRound num lo hi (attempts - 1) gs

/-- The highscore update `if self.score > self.highscore: self.highscore =
self.score` (guessthenum.py:253-254 and 297-298). -/
def updateHighscore (s : GameState) : GameState :=
  if s.score > s.highscore then { s with highscore := s.score } else s

/-- The state effect of one `Game.startRound` call (guessthenum.py:244-298)
given the drawn target and the parsed guesses: highscore is refreshed on
entry, the attempt loop runs, a win increments the score, a loss decrements
the remaining lives, and highscore is refreshed again. (The trailing
recursion into the restart menu or the next round at lines 300-303 is
modelled by the event system below.) -/
def startRound (s : GameState) (num : Int) (guesses : List Int) :
    GameState × RoundResult :=
  let s1 := updateHighscore s
  let r := playRound num s1.range.1 s1.range.2 s1.attempts guesses
  let s2 :=
    match r with
    | .won _ => { s1 with score := s1.score + 1 }
    | .lost _ => { s1 with remainingLives := s1.remainingLives - 1 }
    | .pending _ => s1
  (updateHighscore s2, r)

/-- The `random.randint(a, b)` draw (guessthenum.py:251), parametrised by an
arbitrary integer `draw` standing for the entropy source: it raises
`ValueError` when the range is empty (`b < a`) and otherwise returns a value
in `[a, b]`. -/
def randint (a b : Int) (draw : Int) : Except PyError Int :=
  if b < a then .error .valueError
  else .ok (a + draw % (b - a + 1))

/-- A `startRound` call including its opening random draw: when the stored
range is empty the draw raises and nothing after it runs. -/
def startRoundChecked (s : GameState) (draw : Int) (guesses : List Int) :
    Except PyError (GameState × RoundResult) :=
  (randint s.range.1 s.range.2 draw).map fun num => startRound s num guesses

/-- The state-mutating operations reachable from the menus and the round
loop: `startGame` (guessthenum.py:236-242, score and lives reset), one
`startRound` call, the three settings edits exposed by `settingsMenu`
(guessthenum.py:335, each a plain attribute assignment), and `endGame`
(guessthenum.py:314-326, score reset before exiting). -/
inductive GameEvent where
  | gameStart
  | roundPlayed (num : Int) (guesses : List Int)
  | setLives (v : Int)
  | setRange (lo hi : Int)
  | setAttempts (v : Int)
  | gameEnd
deriving DecidableEq

/-- Apply one event to the game state, exactly as the corresponding source
lines mutate `self`. -/
def gameStep (s : GameState) : GameEvent → GameState
  | .gameStart => { s with score := 0, remainingLives := s.lives }
  | .roundPlayed num gs => (startRound s num gs).1
  | .setLives v => { s with lives := v }
  | .setRange lo hi => { s with range := (lo, hi) }
  | .setAttempts v => { s with attempts := v }
  | .gameEnd => { s with score := 0 }

/-- Run a sequence of events from a state. -/
def runEvents (s : GameState) : List GameEvent → GameState
  | [] => s
  | e :: tr => runEvents (gameStep s e) tr

/-- Where control sits between state changes: at some menu (main, settings or
the try-again menu) or inside the chain of rounds started by `startGame`. -/
inductive Phase where
  | atMenu
  | playing
deriving DecidableEq

/-- States the program can actually reach, following the control flow of the
source: the process starts at the main menu with the initial state; the
settings menu edits one field and returns to a menu; `startGame` resets score
and lives and enters the round chain; each round applies `startRound` with a
target drawn inside the stored range and continues playing exactly when
remaining lives stay positive (guessthenum.py:300-303), otherwise control
falls to the try-again menu. The `livesEditable` flag selects whether the
lives edit offered by the settings menu is included. -/
inductive Reachable (livesEditable : Bool) : Phase → GameState → Prop where
  | start : Reachable livesEditable .atMenu initialState
  | editLives (v : Int) {s : GameState} : livesEditable = true →
      Reachable livesEditable .atMenu s →
      Reachable livesEditable .atMenu { s with lives := v }
  | editRange (lo hi : Int) {s : GameState} :
      Reachable livesEditable .atMenu s →
      Reachable livesEditable .atMenu { s with range := (lo, hi) }
  | editAttempts (v : Int) {s : GameState} :
      Reachable livesEditable .atMenu s →
      Reachable livesEditable .atMenu { s with attempts := v }
  | gameStart {s : GameState} :
      Reachable livesEditable .atMenu s →
      Reachable livesEditable .playing
        { s with score := 0, remainingLives := s.lives }
  | roundPlayed (num : Int) (gs : List Int) {s : GameState} :
      Reachable livesEditable .playing s →
      s.range.1 ≤ num → num ≤ s.range.2 →
      Reachable livesEditable
        (if (startRound s num gs).1.remainingLives ≤ 0 then .atMenu
         else .playing)
        (startRound s num gs).1

section HelperLemmas

@[simp] theorem updateHighscore_score (s : GameState) :
    (updateHighscore s).score = s.score := by
  unfold updateHighscore; split <;> rfl

@[simp] theorem updateHighscore_remainingLives (s : GameState) :
    (updateHighscore s).remainingLives = s.remainingLives := by
  unfold updateHighscore; split <;> rfl

@[simp] theorem updateHighscore_lives (s : GameState) :
    (updateHighscore s).lives = s.lives := by
  unfold updateHighscore; split <;> rfl

@[simp] theorem updateHighscore_range (s : GameState) :
    (updateHighscore s).range = s.range := by
  unfold updateHighscore; split <;> rfl

@[simp] theorem updateHighscore_attempts (s : GameState) :
    (updateHighscore s).attempts = s.attempts := by
  unfold updateHighscore; split <;> rfl

theorem le_updateHighscore (s : GameState) :
    s.highscore ≤ (updateHighscore s).highscore := by
  unfold updateHighscore; split
  · simp; omega
  · exact le_refl _

theorem playRound_cons_correct (num lo hi a : Int) (gs : List Int)
    (h : 0 < a) : playRound num lo hi a (num :: gs) = .won a := by
  simp [playRound, classifyGuess, show ¬a ≤ 0 by omega]

theorem classifyGuess_oor (num lo hi g : Int) (hg : g ≠ num)
    (hoor : g < lo ∨ hi < g) : classifyGuess num lo hi g = .outOfRange := by
  unfold classifyGuess
  rw [if_neg hg, if_pos (by omega : g < lo ∨ g > hi)]

theorem playRound_cons_oor (num lo hi a g : Int) (gs : List Int)
    (h : 0 < a) (hg : g ≠ num) (hoor : g < lo ∨ hi < g) :
    playRound num lo hi a (g :: gs) = playRound num lo hi a gs := by
  show (if a ≤ 0 then RoundResult.lost num
    else match classifyGuess num lo hi g with
      | .correct => .won a
      | .outOfRange => playRound num lo hi a gs
      | .tooLow => playRound num lo hi (a - 1) gs
      | .tooHigh => playRound num lo hi (a - 1) gs) = playRound num lo hi a gs
  rw [if_neg (by omega), classifyGuess_oor num lo hi g hg hoor]

theorem playRound_cons_wrong (num lo hi a g : Int) (gs : List Int)
    (h : 0 < a) (hg : g ≠ num) (hlo : lo ≤ g) (hhi : g ≤ hi) :
    playRound num lo hi a (g :: gs) = playRound num lo hi (a - 1) gs := by
  show (if a ≤ 0 then RoundResult.lost num
    else match classifyGuess num lo hi g with
      | .correct => .won a
      | .outOfRange => playRound num lo hi a gs
      | .tooLow => playRound num lo hi (a - 1) gs
      | .tooHigh => playRound num lo hi (a - 1) gs) =
        playRound num lo hi (a - 1) gs
  rw [if_neg (by omega)]
  by_cases hlt : g < num
  · rw [show classifyGuess num lo hi g = .tooLow by
      unfold classifyGuess
      rw [if_neg hg, if_neg (by omega : ¬(g < lo ∨ g > hi)), if_pos hlt]]
  · rw [show classifyGuess num lo hi g = .tooHigh by
      unfold classifyGuess
      rw [if_neg hg, if_neg (by omega : ¬(g < lo ∨ g > hi)), if_neg hlt]]

theorem playRound_exhaust (num lo hi : Int) :
    ∀ gs : List Int, (∀ g ∈ gs, lo ≤ g ∧ g ≤ hi ∧ g ≠ num) →
      playRound num lo hi (gs.length : Int) gs = .lost num := by
  intro gs
  induction gs with
  | nil => intro _; simp [playRound]
  | cons g gs ih =>
      intro h
      obtain ⟨hlo, hhi, hg⟩ := h g (List.mem_cons_self g gs)
      rw [show ((g :: gs).length : Int) = (gs.length : Int) + 1 by
        simp]
      rw [playRound_cons_wrong num lo hi _ g gs (by omega) hg hlo hhi]
      rw [show (gs.length : Int) + 1 - 1 = (gs.length : Int) by omega]
      exact ih fun x hx => h x (List.mem_cons_of_mem g hx)

theorem startRound_of_won (s : GameState) (num : Int) (gs : List Int)
    (a : Int)
    (h : playRound num s.range.1 s.range.2 s.attempts gs = .won a) :
    (startRound s num gs).2 = .won a ∧
    (startRound s num gs).1.score = s.score + 1 ∧
    (startRound s num gs).1.remainingLives = s.remainingLives := by
  unfold startRound
  simp only [updateHighscore_range, updateHighscore_attempts, h,
    updateHighscore_score, updateHighscore_remainingLives]
  exact ⟨trivial, trivial, trivial⟩

theorem startRound_of_lost (s : GameState) (num : Int) (gs : List Int)
    (n : Int)
    (h : playRound num s.range.1 s.range.2 s.attempts gs = .lost n) :
    (startRound s num gs).2 = .lost n ∧
    (startRound s num gs).1.remainingLives = s.remainingLives - 1 ∧
    (startRound s num gs).1.score = s.score := by
  unfold startRound
  simp only [updateHighscore_range, updateHighscore_attempts, h,
    updateHighscore_score, updateHighscore_remainingLives]
  exact ⟨trivial, trivial, trivial⟩

theorem startRound_lives (s : GameState) (num : Int) (gs : List Int) :
    (startRound s num gs).1.lives = s.lives := by
  rcases hr : playRound num s.range.1 s.range.2 s.attempts gs with a | n | a <;>
    simp [startRound, hr]

theorem startRound_remaining (s : GameState) (num : Int) (gs : List Int) :
    (startRound s num gs).1.remainingLives = s.remainingLives ∨
    (startRound s num gs).1.remainingLives = s.remainingLives - 1 := by
  rcases hr : playRound num s.range.1 s.range.2 s.attempts gs with a | n | a <;>
    simp [startRound, hr]

theorem startRound_highscore (s : GameState) (num : Int) (gs : List Int) :
    s.highscore ≤ (startRound s num gs).1.highscore := by
  rcases hr : playRound num s.range.1 s.range.2 s.attempts gs with a | n | a <;>
    simp only [startRound, updateHighscore_range, updateHighscore_attempts,
      hr] <;>
    exact le_trans (le_updateHighscore s) (le_updateHighscore _)

end HelperLemmas

/-- Claim C1 (code bug): editing a configurable int field (here `lives`,
currently `3`) with a line that cannot be coerced (`abc`) does not report the
type error and re-prompt: `int` raises `ValueError`, the handler in
`Value.select` catches only `TypeError`, and the exception propagates out of
the edit flow uncaught. The field keeps its previous value only because the
assignment never executed. -/
theorem valueEdit_valueError_crashes :
    valueSelect (PyVal.vint 3) ["abc"] = .crash .valueError := rfl

/-- Claim C6 (counterexample): editing the range field (a pair) with the
single-token line `5` does not fail coercion. `tuple(map(int, ...))` accepts
an iterable of any length, so the edit succeeds and replaces the stored pair
with the one-element tuple `(5,)`. -/
theorem single_token_edit_succeeds :
    valueSelect (PyVal.vtuple [1, 100]) ["5"] = .set (.vtuple [5]) ∧
    PyVal.vtuple [5] ≠ PyVal.vtuple [1, 100] :=
  ⟨rfl, by decide⟩

/-- Claim C6 (amended): editing a field whose current value is a tuple with a
line of two whitespace-separated integer tokens sets both bounds; a line with
exactly one integer token also succeeds, storing a one-element tuple — the
arity of the stored tuple is not checked. -/
theorem range_edit_token_semantics :
    (∀ (line t1 t2 : String) (a b : Int) (xs : List Int),
        pySplit line = [t1, t2] → pyInt t1 = .ok a → pyInt t2 = .ok b →
        valueSelect (.vtuple xs) [line] = .set (.vtuple [a, b])) ∧
    (∀ (line t : String) (a : Int) (xs : List Int),
        pySplit line = [t] → pyInt t = .ok a →
        valueSelect (.vtuple xs) [line] = .set (.vtuple [a])) := by
  constructor
  · intro line t1 t2 a b xs hsplit h1 h2
    simp [valueSelect, coerceValue, PyVal.typ, coerceTokens, hsplit, h1, h2,
      Except.map]
  · intro line t a xs hsplit h1
    simp [valueSelect, coerceValue, PyVal.typ, coerceTokens, hsplit, h1,
      Except.map]

/-- Witness for the amended C6 theorem at the concrete lines `5 10` and
`42`. -/
theorem range_edit_token_semantics_witness :
    valueSelect (PyVal.vtuple [1, 100]) ["5 10"] = .set (.vtuple [5, 10]) ∧
    valueSelect (PyVal.vtuple [1, 100]) ["42"] = .set (.vtuple [42]) :=
  ⟨range_edit_token_semantics.1 "5 10" "5" "10" 5 10 [1, 100] rfl rfl rfl,
   range_edit_token_semantics.2 "42" "42" 42 [1, 100] rfl rfl⟩

/-- Claim C8 (counterexample): constructing a menu with an empty items list
does not raise at construction time. `ConsoleMenu.__init__` performs no
validation, so the call succeeds and produces a menu object whose choices
list is empty. -/
theorem empty_menu_constructs :
    (ConsoleMenu.init "settings" [] none).choices = [] ∧
    (ConsoleMenu.init "settings" [] none).name = "Settings" :=
  ⟨rfl, rfl⟩

/-- Claim C8 (amended): menu construction with zero items succeeds for any
name and produces a menu object with an empty choices list — there is no
fail-fast check; opening such a menu re-prompts forever, since every entered
index is rejected as out of range. -/
theorem empty_menu_construction_total :
    (∀ (nm : String) (hd : Option String),
        (ConsoleMenu.init nm [] hd).choices = []) ∧
    (∀ i : Int, menuChoose [] i = .retryMsg "Please enter a valid option.") := by
  constructor
  · intro nm hd; rfl
  · intro i
    simp only [menuChoose]
    rw [if_pos (by simp; omega)]

/-- Claim C7: for a menu with N items, an entered choice i with 1 ≤ i ≤ N
selects exactly item i-1 of the items sequence, invoking its factory first
when the entry is callable; any entered integer outside [1, N] yields the
validation message and a re-prompt without selecting anything. -/
theorem menu_selection_resolves :
    (∀ (items : List MenuEntry) (i : Int) (e : MenuEntry),
        1 ≤ i → i ≤ (items.length : Int) →
        items.get? (i - 1).toNat = some e →
        menuChoose items i = .selected (resolve e)) ∧
    (∀ (items : List MenuEntry) (i : Int),
        i < 1 ∨ (items.length : Int) < i →
        menuChoose items i = .retryMsg "Please enter a valid option.") := by
  constructor
  · intro items i e h1 h2 hget
    simp only [menuChoose]
    rw [if_neg (by omega), hget]
  · intro items i h
    simp only [menuChoose]
    rw [if_pos (by omega)]

/-- Witness for the C7 theorem: on the three-item main menu, choice 2 selects
the second entry (a factory, invoked to yield the settings submenu), and
choice 4 is rejected with the validation message. -/
theorem menu_selection_resolves_witness :
    menuChoose [MenuEntry.option "Start",
      MenuEntry.factory (.submenu "Settings"), MenuEntry.option "Quit"] 2 =
      .selected (.submenu "Settings") ∧
    menuChoose [MenuEntry.option "Start",
      MenuEntry.factory (.submenu "Settings"), MenuEntry.option "Quit"] 4 =
      .retryMsg "Please enter a valid option." :=
  ⟨menu_selection_resolves.1 _ 2 (MenuEntry.factory (.submenu "Settings"))
      (by decide) (by decide) rfl,
   menu_selection_resolves.2 _ 4 (by decide)⟩

/-- Claim C2: at any point of the attempt loop with at least one attempt
remaining, a guess equal to the target ends the round as a win with the
attempts counter undecremented, whatever its value; through `startRound` this
increments the score by exactly 1 and leaves the remaining lives unchanged. -/
theorem correct_guess_wins :
    (∀ (num lo hi a : Int) (gs : List Int), 0 < a →
        playRound num lo hi a (num :: gs) = .won a) ∧
    (∀ (s : GameState) (num : Int) (gs : List Int), 0 < s.attempts →
        (startRound s num (num :: gs)).2 = .won s.attempts ∧
        (startRound s num (num :: gs)).1.score = s.score + 1 ∧
        (startRound s num (num :: gs)).1.remainingLives =
          s.remainingLives) := by
  constructor
  · exact playRound_cons_correct
  · intro s num gs h
    exact startRound_of_won s num (num :: gs) s.attempts
      (playRound_cons_correct num s.range.1 s.range.2 s.attempts gs h)

/-- Witness for the C2 theorem: with 7 attempts left, guessing the target 42
immediately wins with the counter still at 7, and from the initial state the
score goes from 0 to 1 with lives untouched. -/
theorem correct_guess_wins_witness :
    playRound 42 1 100 7 [42] = RoundResult.won 7 ∧
    ((startRound initialState 42 [42]).2 =
        RoundResult.won initialState.attempts ∧
      (startRound initialState 42 [42]).1.score = initialState.score + 1 ∧
      (startRound initialState 42 [42]).1.remainingLives =
        initialState.remainingLives) :=
  ⟨correct_guess_wins.1 42 1 100 7 [] (by decide),
   correct_guess_wins.2 initialState 42 [] (by decide)⟩

/-- Claim C3: a sequence of exactly `attempts` guesses, each inside the range
but different from the target, ends the round as a loss with the target
revealed; through `startRound` this decrements the remaining lives by exactly
1. -/
theorem attempts_exhausted_loses :
    (∀ (num lo hi : Int) (gs : List Int),
        (∀ g ∈ gs, lo ≤ g ∧ g ≤ hi ∧ g ≠ num) →
        playRound num lo hi (gs.length : Int) gs = .lost num) ∧
    (∀ (s : GameState) (num : Int) (gs : List Int),
        (∀ g ∈ gs, s.range.1 ≤ g ∧ g ≤ s.range.2 ∧ g ≠ num) →
        s.attempts = (gs.length : Int) →
        (startRound s num gs).2 = .lost num ∧
        (startRound s num gs).1.remainingLives = s.remainingLives - 1) := by
  constructor
  · exact playRound_exhaust
  · intro s num gs h ha
    have hp : playRound num s.range.1 s.range.2 s.attempts gs = .lost num := by
      rw [ha]; exact playRound_exhaust num s.range.1 s.range.2 gs h
    obtain ⟨h1, h2, _⟩ := startRound_of_lost s num gs num hp
    exact ⟨h1, h2⟩

/-- Witness for the C3 theorem: with 2 attempts per round, the two wrong
in-range guesses 2 and 3 against target 50 lose the round, reveal 50, and
cost one life. -/
theorem attempts_exhausted_loses_witness :
    (startRound { initialState with attempts := 2 } 50 [2, 3]).2 =
      RoundResult.lost 50 ∧
    (startRound { initialState with attempts := 2 } 50 [2, 3]).1.remainingLives =
      ({ initialState with attempts := 2 } : GameState).remainingLives - 1 :=
  attempts_exhausted_loses.2 { initialState with attempts := 2 } 50 [2, 3]
    (by decide) (by decide)

/-- Claim C4: the target drawn by `randint` always lies inside the stored
range, and a guess strictly below the minimum or strictly above the maximum
is classified as out of range (producing the range message) and is retried
without consuming an attempt: the loop continues with the counter unchanged. -/
theorem out_of_range_guess_free :
    (∀ a b d n : Int, randint a b d = .ok n → a ≤ n ∧ n ≤ b) ∧
    (∀ (num lo hi a g : Int) (gs : List Int), 0 < a →
        lo ≤ num → num ≤ hi → (g < lo ∨ hi < g) →
        classifyGuess num lo hi g = .outOfRange ∧
        playRound num lo hi a (g :: gs) = playRound num lo hi a gs) := by
  constructor
  · intro a b d n h
    unfold randint at h
    by_cases hab : b < a
    · rw [if_pos hab] at h; exact absurd h (by simp)
    · rw [if_neg hab] at h
      have hn : n = a + d % (b - a + 1) := (Except.ok.inj h).symm
      have hpos : (0 : Int) < b - a + 1 := by omega
      have h1 : 0 ≤ d % (b - a + 1) := Int.emod_nonneg d (by omega)
      have h2 : d % (b - a + 1) < b - a + 1 := Int.emod_lt_of_pos d hpos
      omega
  · intro num lo hi a g gs ha hlo hhi hoor
    have hg : g ≠ num := by omega
    exact ⟨classifyGuess_oor num lo hi g hg hoor,
      playRound_cons_oor num lo hi a g gs ha hg hoor⟩

/-- Witness for the C4 theorem: the draw for range 1..100 with entropy 0
yields 1, inside the range; and against target 50 with 7 attempts, the
out-of-range guess 200 is retried with the counter still at 7. -/
theorem out_of_range_guess_free_witness :
    ((1 : Int) ≤ 1 ∧ (1 : Int) ≤ 100) ∧
    (classifyGuess 50 1 100 200 = .outOfRange ∧
      playRound 50 1 100 7 [200] = playRound 50 1 100 7 []) :=
  ⟨out_of_range_guess_free.1 1 100 0 1 rfl,
   out_of_range_guess_free.2 50 1 100 7 200 [] (by decide) (by decide)
     (by decide) (by decide)⟩

/-- Claim C5: no state-mutating operation of the game — starting a game,
playing a round, any settings edit, ending a game — ever decreases the
highscore field, and hence it is non-decreasing along every sequence of such
operations. -/
theorem highscore_monotone :
    (∀ (s : GameState) (e : GameEvent),
        s.highscore ≤ (gameStep s e).highscore) ∧
    (∀ (s : GameState) (tr : List GameEvent),
        s.highscore ≤ (runEvents s tr).highscore) := by
  have hstep : ∀ (s : GameState) (e : GameEvent),
      s.highscore ≤ (gameStep s e).highscore := by
    intro s e
    cases e with
    | gameStart => simp [gameStep]
    | roundPlayed num gs => exact startRound_highscore s num gs
    | setLives v => simp [gameStep]
    | setRange lo hi => simp [gameStep]
    | setAttempts v => simp [gameStep]
    | gameEnd => simp [gameStep]
  refine ⟨hstep, ?_⟩
  intro s tr
  induction tr generalizing s with
  | nil => exact le_refl _
  | cons e tr ih =>
      exact le_trans (hstep s e) (ih (gameStep s e))

/-- Claim C9 (counterexample): the state reached from the initial state by a
single settings edit lowering `lives` to 1 is reachable at a menu, yet its
remaining lives (still 3) exceed the configured lives, violating
0 ≤ livesRemaining ≤ livesConfigured. -/
theorem lives_edit_breaks_invariant :
    Reachable true Phase.atMenu { initialState with lives := 1 } ∧
    ¬(0 ≤ ({ initialState with lives := 1 } : GameState).remainingLives ∧
      ({ initialState with lives := 1 } : GameState).remainingLives ≤
        ({ initialState with lives := 1 } : GameState).lives) :=
  ⟨Reachable.editLives 1 rfl Reachable.start, by decide⟩

theorem reachable_fixedLives_invariant (p : Phase) (s : GameState)
    (h : Reachable false p s) :
    s.lives = 3 ∧ 0 ≤ s.remainingLives ∧ s.remainingLives ≤ s.lives ∧
      (p = .playing → 1 ≤ s.remainingLives) := by
  induction h with
  | start => simp [initialState]
  | editLives v hedit _ _ => exact absurd hedit (by simp)
  | editRange lo hi _ ih =>
      refine ⟨ih.1, ih.2.1, ih.2.2.1, ?_⟩
      intro hp; exact absurd hp (by simp)
  | editAttempts v _ ih =>
      refine ⟨ih.1, ih.2.1, ih.2.2.1, ?_⟩
      intro hp; exact absurd hp (by simp)
  | gameStart _ ih =>
      refine ⟨ih.1, ?_, ?_, ?_⟩ <;> simp [ih.1]
  | roundPlayed num gs hreach hlo hhi ih =>
      rename_i s1
      have hlives := startRound_lives s1 num gs
      have hrem := startRound_remaining s1 num gs
      have hplay := ih.2.2.2 rfl
      refine ⟨by rw [hlives, ih.1], by omega, by rw [hlives]; omega, ?_⟩
      split
      · intro hp; exact absurd hp (by simp)
      · intro _
        rename_i hcond
        omega

/-- Claim C9 (amended): in every state the program reaches without ever
editing the lives setting, 0 ≤ livesRemaining ≤ livesConfigured holds; a
lives edit can break the invariant, as the counterexample shows. -/
theorem lives_invariant_without_lives_edits (p : Phase) (s : GameState)
    (h : Reachable false p s) :
    0 ≤ s.remainingLives ∧ s.remainingLives ≤ s.lives :=
  ⟨(reachable_fixedLives_invariant p s h).2.1,
   (reachable_fixedLives_invariant p s h).2.2.1⟩

/-- Witness for the amended C9 theorem at the initial state. -/
theorem lives_invariant_without_lives_edits_witness :
    0 ≤ initialState.remainingLives ∧
      initialState.remainingLives ≤ initialState.lives :=
  lives_invariant_without_lives_edits Phase.atMenu initialState
    Reachable.start

/-- Claim C10: starting a round is total exactly under the precondition
min ≤ max on the stored range — with a valid range the draw always succeeds,
with an inverted range `randint` raises `ValueError`, which nothing catches —
and the settings menu does let the player store an inverted range: the state
with range (5, 1) is reachable, and the range edit flow accepts the line
`5 1` against any stored pair. -/
theorem startRound_range_precondition :
    (∀ (s : GameState) (d : Int) (gs : List Int),
        s.range.1 ≤ s.range.2 →
        ∃ out, startRoundChecked s d gs = .ok out) ∧
    (∀ (s : GameState) (d : Int) (gs : List Int),
        s.range.2 < s.range.1 →
        startRoundChecked s d gs = .error .valueError) ∧
    Reachable true Phase.atMenu { initialState with range := (5, 1) } ∧
    valueSelect (PyVal.vtuple [1, 100]) ["5 1"] = .set (.vtuple [5, 1]) := by
  refine ⟨?_, ?_, Reachable.editRange 5 1 Reachable.start, rfl⟩
  · intro s d gs h
    refine ⟨(startRound s
      (s.range.1 + d % (s.range.2 - s.range.1 + 1)) gs), ?_⟩
    unfold startRoundChecked randint
    rw [if_neg (by omega)]
    rfl
  · intro s d gs h
    unfold startRoundChecked randint
    rw [if_pos (by omega)]
    rfl

/-- Witness for the C10 theorem: from the initial state (range 1..100) the
round draw succeeds, while in the reachable state with range (5, 1) the same
call raises `ValueError`. -/
theorem startRound_range_precondition_witness :
    (∃ out, startRoundChecked initialState 0 [] = .ok out) ∧
    startRoundChecked { initialState with range := (5, 1) } 0 [] =
      .error .valueError :=
  ⟨startRound_range_precondition.1 initialState 0 [] (by decide),
   startRound_range_precondition.2.1 { initialState with range := (5, 1) }
     0 [] (by decide)⟩

end GuessTheNum
